import Mathlib

/-!
Verification development for the avrogen generator (src/main.py).

The program reads Avro schema documents, maps Avro types to Python type
annotations, and renders one Python dataclass per generation-target record.
This file gives a shallow embedding of the parts of the program that the
behavioural claims are about:

* `Schema` / `Field` model the avro-library schema objects that
  `avrotype_to_pytype` branches on with `isinstance`.  The avro library
  resolves name references at parse time, so a field whose type was written
  as a name reference carries the referenced `RecordSchema` object itself;
  there is no separate reference node at mapping time.
* Raising an exception is modelled as `Except.error` carrying the message
  string.  The two `raise` sites in `avrotype_to_pytype` both raise
  `Exception(f"Unable to handle type {type(type_schema)}")`; we render
  `type(x)` as the dotted class path (Python prints it wrapped in
  `<class ...>`, which we drop).
* `capital_case` is modelled with Python string semantics over the ASCII
  characters legal in Avro names: `str.split("_")` keeps empty segments and
  `str.title()` uppercases a letter that follows a non-letter and lowercases
  a letter that follows a letter.
* The jinja template in `write_dataclasses` is modelled as a function from
  the schema list to the rendered text (or the first exception raised while
  rendering).  Whitespace trimming done by jinja block tags is approximated;
  the claims quantify over ordering and content, not byte-exact whitespace.
* `run` is modelled as an event trace (file opens and writes) plus a result,
  parametrized over the external parsing collaborator
  (`avro.schema.SchemaFromJSONData` together with `json.load` and the open
  of the input file) and over the registry state type
  (`avro.schema.Names`), both of which live outside this repository.
-/

namespace Avrogen

/-- The eight primitive Avro kinds carried by `avro.schema.PrimitiveSchema`;
the avro library guarantees `type_schema.type` is one of these strings. -/
inductive PrimKind where
  | null
  | boolean
  | int
  | long
  | float
  | double
  | bytes
  | string
deriving DecidableEq

/-- The `type` attribute of a `PrimitiveSchema`, as a string. -/
def PrimKind.typeName : PrimKind → String
  | .null => "null"
  | .boolean => "boolean"
  | .int => "int"
  | .long => "long"
  | .float => "float"
  | .double => "double"
  | .bytes => "bytes"
  | .string => "string"

mutual

/-- The avro schema objects distinguished by the `isinstance` chain of
`avrotype_to_pytype`: `PrimitiveSchema`, `UnionSchema` (with its `schemas`
list), `ArraySchema` (with `items`), `MapSchema` (with `values`) and
`RecordSchema` (with `name`, optional namespace, optional doc and ordered
`fields`).  Name references are resolved by the avro parser before the
mapper runs, so a resolved reference is simply the `record` node itself. -/
inductive Schema where
  | primitive (kind : PrimKind)
  | union (schemas : List Schema)
  | array (items : Schema)
  | mapSchema (values : Schema)
  | record (name : String) (ns : Option String) (doc : Option String)
      (fields : List Field)

/-- A record field: `name`, `type`, the rendered default literal when the
field declares a default (the template emits `repr(field.default)` exactly
when `"default" in field._props`), and an optional doc string. -/
inductive Field where
  | mk (name : String) (type : Schema) (default : Option String)
      (doc : Option String)

end

/-- The field name attribute. -/
def Field.name : Field → String
  | .mk n _ _ _ => n

/-- The field type attribute. -/
def Field.type : Field → Schema
  | .mk _ t _ _ => t

/-- The rendered default literal, when the field declares a default. -/
def Field.default : Field → Option String
  | .mk _ _ d _ => d

/-- The message of `Exception(f"Unable to handle type {type(type_schema)}")`
with the class path of the offending schema object spliced in. -/
def unableToHandle (cls : String) : String :=
  "Unable to handle type " ++ cls

/-- The primitive lookup dictionary of `avrotype_to_pytype` (main.py lines
42-51), keyed by the `type` string; `none` models a `KeyError`. -/
def primitive_table : String → Option String
  | "null" => some "None"
  | "string" => some "str"
  | "bytes" => some "bytes"
  | "long" => some "int"
  | "int" => some "int"
  | "float" => some "float"
  | "double" => some "double"
  | "boolean" => some "bool"
  | _ => none

/-- `is_optional_type` (main.py lines 67-72) applied to the `schemas` list
of a `UnionSchema`: exactly two alternatives, the first an instance of
`PrimitiveSchema` whose `type` is `"null"`. -/
def is_optional_type (schemas : List Schema) : Bool :=
  if schemas.length != 2 then false
  else
    match schemas with
    | (Schema.primitive k) :: _ => k.typeName == "null"
    | _ => false

/-- `avrotype_to_pytype` (main.py lines 40-64).  A raised exception is the
`Except.error` case.  The union case is split on the list shape so that the
recursion on the second alternative is structural; a union with fewer than
two alternatives is never `is_optional_type`, so both union arms below
reproduce the fall-through to the final `else: raise` of the source, which
raises the generic message for the `UnionSchema` class.  The primitive
dictionary lookup cannot actually fail because the avro library only
produces the eight keyed kinds; the `KeyError` arm is kept for fidelity. -/
def avrotype_to_pytype : Schema → Except String String
  | .primitive k =>
      match primitive_table (PrimKind.typeName k) with
      | some t => Except.ok t
      | none => Except.error ("KeyError: " ++ PrimKind.typeName k)
  | .union (a :: s1 :: rest) =>
      if is_optional_type (a :: s1 :: rest) then
        match avrotype_to_pytype s1 with
        | Except.ok t => Except.ok ("Optional[" ++ t ++ "]")
        | Except.error e => Except.error e
      else Except.error (unableToHandle "avro.schema.UnionSchema")
  | .union _ => Except.error (unableToHandle "avro.schema.UnionSchema")
  | .array items =>
      match avrotype_to_pytype items with
      | Except.ok t => Except.ok ("List[" ++ t ++ "]")
      | Except.error e => Except.error e
  | .mapSchema values =>
      match avrotype_to_pytype values with
      | Except.ok t => Except.ok ("Dict[str, " ++ t ++ "]")
      | Except.error e => Except.error e
  | .record _ _ _ _ => Except.error (unableToHandle "avro.schema.RecordSchema")

/-- One step of Python `str.title()`: a letter is uppercased when the
previous character was not a letter and lowercased when it was; non-letter
characters pass through.  ASCII suffices for Avro identifiers. -/
def titleChar (prevCased : Bool) (c : Char) : Char :=
  if c.isAlpha then (if prevCased then c.toLower else c.toUpper) else c

/-- Python `str.title()` over a character list, threading the
previous-character-was-a-letter flag. -/
def titleAux : Bool → List Char → List Char
  | _, [] => []
  | prev, c :: cs => titleChar prev c :: titleAux c.isAlpha cs

/-- Python `word.title()`. -/
def pyTitle (w : List Char) : List Char :=
  titleAux false w

/-- Python `s.split("_")`: every underscore separates, empty segments are
kept.  Returned as first segment plus remaining segments, so the result is
always non-empty, exactly as in Python. -/
def pySplitUnderscore : List Char → List Char × List (List Char)
  | [] => ([], [])
  | c :: cs =>
      let r := pySplitUnderscore cs
      if c = '_' then ([], r.1 :: r.2) else (c :: r.1, r.2)

/-- `capital_case` (main.py lines 106-107):
`''.join(word.title() for word in snakecased.split("_"))`. -/
def capital_case (snakecased : String) : String :=
  let r := pySplitUnderscore snakecased.data
  String.mk (List.flatten ((r.1 :: r.2).map pyTitle))

/-- Amended-claim characterization of `capital_case` as one pass over the
characters: underscores are dropped and reset the case state, a letter
after the start, an underscore or a non-letter is uppercased, a letter
after another letter is lowercased, and other characters pass through. -/
def camelOnePass : Bool → List Char → List Char
  | _, [] => []
  | prev, c :: cs =>
      if c = '_' then camelOnePass false cs
      else titleChar prev c :: camelOnePass c.isAlpha cs

/-- The claim wording for one segment: capitalizing it, that is uppercasing
its first character (the rest of the segment carrying no uppercase letters
is unaffected under either common reading of capitalize; we lowercase it,
as Python str.capitalize does). -/
def claimedCapitalize : List Char → List Char
  | [] => []
  | c :: cs => c.toUpper :: cs.map Char.toLower

/-- The record-name transformation as worded by the claim: split on
underscores, capitalize each segment, concatenate. -/
def claimed_capital_case (s : String) : String :=
  let r := pySplitUnderscore s.data
  String.mk (List.flatten ((r.1 :: r.2).map claimedCapitalize))

/-- The literal text of the template before the schema loop (main.py lines
76-81): the imports and the single `@dataclasses.dataclass` decorator. -/
def pyHeader : String :=
  "from __future__ import annotations\n\nimport dataclasses\nfrom typing import Dict, Final, List, Optional\n\n@dataclasses.dataclass"

/-- The ` = {{ repr(field.default) }}` part of a field line, emitted exactly
when the field declares a default. -/
def renderDefault : Option String → String
  | some d => " = " ++ d
  | none => ""

/-- The docstring block emitted when the record has a doc. -/
def renderDoc : Option String → String
  | some d => "\"\"\"" ++ d ++ "\n\"\"\""
  | none => ""

/-- `schema.avro_name.fullname`: the namespace-qualified name, or the bare
name when no namespace is present. -/
def avroFullname (name : String) (ns : Option String) : String :=
  match ns with
  | some nsp => nsp ++ "." ++ name
  | none => name

/-- `schema.avro_name.namespace`, rendered into the template. -/
def avroNamespace (ns : Option String) : String :=
  match ns with
  | some nsp => nsp
  | none => ""

/-- One field line of the template (main.py line 87):
`{{field.name}}:{{ avrotype_to_pytype(field.type) }}` plus the optional
default.  A mapping failure raises out of the template render. -/
def renderField (f : Field) : Except String String :=
  match avrotype_to_pytype f.type with
  | Except.ok t =>
      Except.ok ("\n    " ++ f.name ++ ":" ++ t ++ renderDefault f.default ++ "\n")
  | Except.error e => Except.error e

/-- The `{% for field in schema.fields %}` loop: field lines are rendered
left to right and concatenated; the first failure aborts the render. -/
def renderFields : List Field → Except String String
  | [] => Except.ok ""
  | f :: fs =>
      match renderField f with
      | Except.error e => Except.error e
      | Except.ok line =>
          match renderFields fs with
          | Except.error e => Except.error e
          | Except.ok rest => Except.ok (line ++ rest)

/-- One iteration of the `{% for schema in schemas %}` loop (main.py lines
82-93): the class line with the `capital_case`d record name, the optional
docstring, the field lines, and the two trailing identity constants.  The
template reads `schema.name` and `schema.fields`, which only record schemas
possess; a non-record generation target fails the render. -/
def renderSchema : Schema → Except String String
  | .record name ns doc fields =>
      match renderFields fields with
      | Except.error e => Except.error e
      | Except.ok body =>
          Except.ok ("\nclass " ++ capital_case name ++ ":" ++ renderDoc doc
            ++ body
            ++ "\n    _avro_fullname: Final[str] = \"" ++ avroFullname name ns ++ "\""
            ++ "\n    _avro_namespace: Final[str] = \"" ++ avroNamespace ns ++ "\"\n\n")
  | _ => Except.error (unableToHandle "non-record generation target")

/-- The schema loop: record blocks are rendered left to right, in the order
of the schema list, and concatenated. -/
def renderSchemas : List Schema → Except String String
  | [] => Except.ok ""
  | s :: ss =>
      match renderSchema s with
      | Except.error e => Except.error e
      | Except.ok block =>
          match renderSchemas ss with
          | Except.error e => Except.error e
          | Except.ok rest => Except.ok (block ++ rest)

/-- `write_dataclasses` (main.py lines 75-103) up to the `fp.write`: the
full rendered text, or the first exception raised during the render. -/
def write_dataclasses (schemas : List Schema) : Except String String :=
  match renderSchemas schemas with
  | Except.ok body => Except.ok (pyHeader ++ body ++ "\n")
  | Except.error e => Except.error e

/-- Observable file-system events of a run: opening a document for reading,
opening the output file for writing (Python `open(out_file, "w")`, which
creates or truncates it), and writing rendered text to it. -/
inductive Event where
  | openRead (filename : String)
  | openWrite (filename : String)
  | write (filename : String) (content : String)
deriving DecidableEq

/-- The include loop of `run` (main.py lines 25-28): each include file is
opened and parsed into the shared registry; the parsed schema itself is
discarded.  The parsing collaborator (`json.load` plus
`avro.schema.SchemaFromJSONData`) and the registry state type
(`avro.schema.Names`) are external, so they are parameters.  The first
failure aborts the loop. -/
def loadIncludes {N : Type} (parse : String → N → Except String (Schema × N)) :
    List String → N → List Event × Except String N
  | [], names => ([], Except.ok names)
  | f :: fs, names =>
      match parse f names with
      | Except.error e => ([Event.openRead f], Except.error e)
      | Except.ok (_, names2) =>
          let r := loadIncludes parse fs names2
          (Event.openRead f :: r.1, r.2)

/-- The generate loop of `run` (main.py lines 30-33): each generate file is
opened and parsed with the same registry, and the resulting schemas are
appended in file order.  The first failure aborts the loop. -/
def parseGenerates {N : Type} (parse : String → N → Except String (Schema × N)) :
    List String → N → List Event × Except String (List Schema × N)
  | [], names => ([], Except.ok ([], names))
  | f :: fs, names =>
      match parse f names with
      | Except.error e => ([Event.openRead f], Except.error e)
      | Except.ok (s, names2) =>
          let r := parseGenerates parse fs names2
          (Event.openRead f :: r.1,
           match r.2 with
           | Except.error e => Except.error e
           | Except.ok (ss, names3) => Except.ok (s :: ss, names3))

/-- `run` (main.py lines 23-37) as an event trace plus a result: includes
are loaded first, then the generate files are parsed, and only then is the
output file opened (`open(out_file, "w")`); `write_dataclasses` renders
inside that `with` block and its text is written to the file only when the
render succeeds.  Any exception aborts the run at that point. -/
def run {N : Type} (parse : String → N → Except String (Schema × N)) (names0 : N)
    (generate_files include_files : List String) (out_file : String) :
    List Event × Except String Unit :=
  let inc := loadIncludes parse include_files names0
  match inc.2 with
  | Except.error e => (inc.1, Except.error e)
  | Except.ok names1 =>
      let gen := parseGenerates parse generate_files names1
      match gen.2 with
      | Except.error e => (inc.1 ++ gen.1, Except.error e)
      | Except.ok (schemas, _) =>
          match write_dataclasses schemas with
          | Except.error e =>
              (inc.1 ++ gen.1 ++ [Event.openWrite out_file], Except.error e)
          | Except.ok content =>
              (inc.1 ++ gen.1 ++ [Event.openWrite out_file,
                Event.write out_file content], Except.ok ())

/-- The end-to-end document pipeline without the output-file effects: the
text that a fully successful run writes, or the first error of the run. -/
def pipelineOutput {N : Type} (parse : String → N → Except String (Schema × N))
    (names0 : N) (generate_files include_files : List String) :
    Except String String :=
  match (loadIncludes parse include_files names0).2 with
  | Except.error e => Except.error e
  | Except.ok names1 =>
      match (parseGenerates parse generate_files names1).2 with
      | Except.error e => Except.error e
      | Except.ok (schemas, _) => write_dataclasses schemas

/-- Whether a trace contains any write to any file. -/
def hasWriteEvent (tr : List Event) : Bool :=
  tr.any fun e => match e with | Event.write _ _ => true | _ => false

/-- Whether a trace consists only of read opens. -/
def readsOnly (tr : List Event) : Bool :=
  tr.all fun e => match e with | Event.openRead _ => true | _ => false

/-- Whether an exceptional computation succeeded (no exception raised). -/
def isSuccess {α : Type} : Except String α → Bool
  | Except.ok _ => true
  | Except.error _ => false

/-- In-order concatenation of a list of rendered pieces. -/
def concatStrings : List String → String
  | [] => ""
  | s :: ss => s ++ concatStrings ss

/-- A parsing collaborator that fails on every document, standing for a
malformed schema document or an unresolvable reference. -/
def failingParse : String → Unit → Except String (Schema × Unit) :=
  fun _ _ => Except.error "invalid schema document"

/-- A parsing collaborator producing a well-formed record with no fields. -/
def pointParse : String → Unit → Except String (Schema × Unit) :=
  fun _ n => Except.ok (Schema.record "point" none none [], n)

/-- A record whose single field has an unmappable type (an empty union), so
parsing succeeds but the render raises. -/
def badUnionRecord : Schema :=
  Schema.record "bad" none none [Field.mk "x" (Schema.union []) none none]

/-- A parsing collaborator producing `badUnionRecord`. -/
def badUnionParse : String → Unit → Except String (Schema × Unit) :=
  fun _ n => Except.ok (badUnionRecord, n)

/-- Decidable equality of exceptional results, so that concrete runs of the
embedded program can be checked by evaluation. -/
instance instDecEqExcept {ε α : Type} [DecidableEq ε] [DecidableEq α] :
    DecidableEq (Except ε α) := fun a b =>
  match a, b with
  | Except.ok x, Except.ok y =>
      if h : x = y then Decidable.isTrue (by rw [h])
      else Decidable.isFalse (fun hc => h (Except.ok.inj hc))
  | Except.ok _, Except.error _ => Decidable.isFalse (fun hc => Except.noConfusion hc)
  | Except.error _, Except.ok _ => Decidable.isFalse (fun hc => Except.noConfusion hc)
  | Except.error x, Except.error y =>
      if h : x = y then Decidable.isTrue (by rw [h])
      else Decidable.isFalse (fun hc => h (Except.error.inj hc))

/-- In-order exceptional map: applies `f` to the list elements left to
right, collecting the results in order, stopping at the first failure. -/
def mapExcept {α β : Type} (f : α → Except String β) : List α → Except String (List β)
  | [] => Except.ok []
  | a :: as =>
      match f a with
      | Except.error e => Except.error e
      | Except.ok b =>
          match mapExcept f as with
          | Except.error e => Except.error e
          | Except.ok bs => Except.ok (b :: bs)

/-- The value of a successful exceptional computation, with a fallback. -/
def okValue {α : Type} (d : α) : Except String α → α
  | Except.ok a => a
  | Except.error _ => d

/-- Helper: a successful render of a field list means every member field
rendered successfully. -/
theorem renderFields_ok_mem {fields : List Field} {body : String}
    (h : renderFields fields = Except.ok body) :
    ∀ f ∈ fields, ∃ line, renderField f = Except.ok line := by
  induction fields generalizing body with
  | nil => intro f hf; cases hf
  | cons f0 fs ih =>
      intro f hf
      rw [renderFields] at h
      cases h0 : renderField f0 with
      | error e => rw [h0] at h; cases h
      | ok line =>
          rw [h0] at h
          cases hs : renderFields fs with
          | error e => rw [hs] at h; cases h
          | ok rest =>
              cases hf with
              | head => exact ⟨line, h0⟩
              | tail _ hf2 => exact ih hs f hf2

/-- C1: the primitive lookup table of the type mapper, evaluated on every
primitive kind.  The claim says float and double both map to the Python
floating-point type; the code maps the kind `double` to the token
`"double"`, which is not the Python floating-point type `"float"` (and not
a Python type at all), while every other kind maps as the claim states. -/
theorem primitive_table_eval :
    avrotype_to_pytype (Schema.primitive PrimKind.double) = Except.ok "double"
    ∧ ("double" : String) ≠ "float"
    ∧ avrotype_to_pytype (Schema.primitive PrimKind.null) = Except.ok "None"
    ∧ avrotype_to_pytype (Schema.primitive PrimKind.string) = Except.ok "str"
    ∧ avrotype_to_pytype (Schema.primitive PrimKind.bytes) = Except.ok "bytes"
    ∧ avrotype_to_pytype (Schema.primitive PrimKind.long) = Except.ok "int"
    ∧ avrotype_to_pytype (Schema.primitive PrimKind.int) = Except.ok "int"
    ∧ avrotype_to_pytype (Schema.primitive PrimKind.float) = Except.ok "float"
    ∧ avrotype_to_pytype (Schema.primitive PrimKind.boolean) = Except.ok "bool" :=
  ⟨rfl, by decide, rfl, rfl, rfl, rfl, rfl, rfl, rfl⟩

/-- C7: the mapper sends an array node to the sequence type of its mapped
item type and a map node to the string-keyed mapping type of its mapped
value type, propagating any failure of the inner mapping; and the
composition nests through three recursion levels on the concrete example
array-of-optional-of-map-of-long. -/
theorem array_map_compose (s : Schema) :
    avrotype_to_pytype (Schema.array s)
      = (avrotype_to_pytype s).map (fun t => "List[" ++ t ++ "]")
    ∧ avrotype_to_pytype (Schema.mapSchema s)
      = (avrotype_to_pytype s).map (fun t => "Dict[str, " ++ t ++ "]")
    ∧ avrotype_to_pytype (Schema.array (Schema.union [Schema.primitive PrimKind.null,
        Schema.mapSchema (Schema.primitive PrimKind.long)]))
      = Except.ok "List[Optional[Dict[str, int]]]" := by
  refine ⟨?_, ?_, rfl⟩ <;>
    cases h : avrotype_to_pytype s <;> simp [avrotype_to_pytype, h, Except.map]

/-- C9: the record-name transformation is not injective: the two distinct
record names `a_b` and `a__b` both yield the emitted type name `AB`, so two
distinct records can emit colliding class declarations. -/
theorem capital_case_not_injective :
    ¬ Function.Injective capital_case
    ∧ capital_case "a_b" = capital_case "a__b"
    ∧ ("a_b" : String) ≠ "a__b" := by
  refine ⟨fun hinj => ?_, by decide, by decide⟩
  have h : capital_case "a_b" = capital_case "a__b" := by decide
  exact absurd (hinj h) (by decide)

/-- C2 counterexample: the union `[null, record]` has exactly two
alternatives with the null primitive first, yet the mapper fails (the claim
asserts it succeeds for every such union); and the unions `[int]` and
`[string, boolean, bytes]`, which differ in alternative count and in
first-alternative kind, produce byte-identical errors, so the error names
neither the alternative count nor the kind of the first alternative (and no
UnsupportedUnionShapeError class exists: the code raises a generic
Exception). -/
theorem union_claim_counterexample :
    is_optional_type [Schema.primitive PrimKind.null,
      Schema.record "Inner" none none []] = true
    ∧ avrotype_to_pytype (Schema.union [Schema.primitive PrimKind.null,
        Schema.record "Inner" none none []])
      = Except.error (unableToHandle "avro.schema.RecordSchema")
    ∧ avrotype_to_pytype (Schema.union [Schema.primitive PrimKind.int])
      = avrotype_to_pytype (Schema.union [Schema.primitive PrimKind.string,
          Schema.primitive PrimKind.boolean, Schema.primitive PrimKind.bytes]) :=
  ⟨rfl, rfl, rfl⟩

/-- C2 (amended): the mapper on a union succeeds exactly when the union is
optional-shaped (two alternatives, the first the null primitive) and the
second alternative itself maps successfully, returning the optional form of
the mapped second alternative; every union of any other shape fails with
the generic unable-to-handle error naming the UnionSchema class, which
mentions neither the alternative count nor the first-alternative kind. -/
theorem union_mapping_characterization (alts : List Schema) :
    (is_optional_type alts = true →
      alts.head? = some (Schema.primitive PrimKind.null) ∧
      ∀ s1, alts.get? 1 = some s1 →
        avrotype_to_pytype (Schema.union alts)
          = (avrotype_to_pytype s1).map (fun t => "Optional[" ++ t ++ "]"))
    ∧ (is_optional_type alts = false →
      avrotype_to_pytype (Schema.union alts)
        = Except.error (unableToHandle "avro.schema.UnionSchema")) := by
  constructor
  · intro hopt
    cases alts with
    | nil => simp [is_optional_type] at hopt
    | cons a tail =>
    cases tail with
    | nil => simp [is_optional_type] at hopt
    | cons s1 rest =>
    cases rest with
    | cons r rs => simp [is_optional_type] at hopt
    | nil =>
    cases a with
    | union l => simp [is_optional_type] at hopt
    | array i => simp [is_optional_type] at hopt
    | mapSchema v => simp [is_optional_type] at hopt
    | record n nsp d fl => simp [is_optional_type] at hopt
    | primitive k =>
        have hk : k = PrimKind.null := by
          cases k <;> simp [is_optional_type, PrimKind.typeName] at hopt
          rfl
        subst hk
        refine ⟨rfl, fun s hs => ?_⟩
        have hs1 : s1 = s := Option.some.inj hs
        subst hs1
        cases h : avrotype_to_pytype s1 <;>
          simp [avrotype_to_pytype, is_optional_type, PrimKind.typeName, h, Except.map]
  · intro hnot
    match alts with
    | [] => rfl
    | [a] => rfl
    | a :: s1 :: rest =>
        simp [avrotype_to_pytype, hnot]

/-- C2 witness: the characterization applied to the optional union of null
and int, and to the empty union. -/
theorem union_mapping_characterization_witness :
    avrotype_to_pytype (Schema.union
        [Schema.primitive PrimKind.null, Schema.primitive PrimKind.int])
      = (avrotype_to_pytype (Schema.primitive PrimKind.int)).map
          (fun t => "Optional[" ++ t ++ "]")
    ∧ avrotype_to_pytype (Schema.union [])
      = Except.error (unableToHandle "avro.schema.UnionSchema") :=
  ⟨((union_mapping_characterization
      [Schema.primitive PrimKind.null, Schema.primitive PrimKind.int]).1
        (by decide)).2 (Schema.primitive PrimKind.int) rfl,
   (union_mapping_characterization []).2 (by decide)⟩

/-- C4 counterexample: a self-referential record (the avro parser resolves
the reference `node` inside its own record to the record object itself, so
the field type is a RecordSchema node; the inner node here stands for that
resolved reference, which the mapper rejects without inspecting its fields)
fails with the same generic unable-to-handle error as a plain non-cyclic
nested record, and that error is not a CyclicSchemaError: no cycle-specific
error exists anywhere in the code. -/
theorem self_reference_counterexample :
    write_dataclasses [Schema.record "node" none none
        [Field.mk "next" (Schema.record "node" none none []) none none]]
      = Except.error (unableToHandle "avro.schema.RecordSchema")
    ∧ avrotype_to_pytype (Schema.record "node" none none
        [Field.mk "next" (Schema.record "node" none none []) none none])
      = avrotype_to_pytype (Schema.record "other_record" none none [])
    ∧ unableToHandle "avro.schema.RecordSchema" ≠ "CyclicSchemaError" :=
  ⟨rfl, rfl, by decide⟩

/-- C4 (amended): the mapper applied to any record node, which is what a
resolved self-reference is, returns the generic unable-to-handle error for
the RecordSchema class immediately and regardless of the record fields; in
particular it never recurses into the fields, so a self-referential record
cannot cause unbounded recursion or a stack failure (the mapper is a total
terminating function), but the failure is the generic record error, not a
CyclicSchemaError. -/
theorem record_node_generic_error (name : String) (ns doc : Option String)
    (fields : List Field) :
    avrotype_to_pytype (Schema.record name ns doc fields)
      = Except.error (unableToHandle "avro.schema.RecordSchema") := rfl

/-- C5: a record having a field whose type is itself a record node fails:
mapping that field type raises the unable-to-handle error for the
RecordSchema class (the error the spec calls UnsupportedNestedRecordError,
raised at the TODO-marked record branch of the mapper), and rendering the
enclosing record never succeeds, so the nested record is never silently
flattened or inlined into the output. -/
theorem nested_record_field_fails (name rn : String)
    (ns doc rns rdoc : Option String) (fields rfields : List Field) (f : Field)
    (hmem : f ∈ fields) (hty : f.type = Schema.record rn rns rdoc rfields) :
    avrotype_to_pytype f.type = Except.error (unableToHandle "avro.schema.RecordSchema")
    ∧ isSuccess (renderSchema (Schema.record name ns doc fields)) = false := by
  constructor
  · rw [hty]; rfl
  · cases hrf : renderFields fields with
    | error e => simp [renderSchema, hrf, isSuccess]
    | ok body =>
        exfalso
        obtain ⟨line, hline⟩ := renderFields_ok_mem hrf f hmem
        rw [renderField, hty] at hline
        exact Except.noConfusion hline

/-- C5 witness: the record `outer` with one field whose type is the record
`Inner`. -/
theorem nested_record_field_fails_witness :
    avrotype_to_pytype
        (Field.mk "inner" (Schema.record "Inner" none none []) none none).type
      = Except.error (unableToHandle "avro.schema.RecordSchema")
    ∧ isSuccess (renderSchema (Schema.record "outer" none none
        [Field.mk "inner" (Schema.record "Inner" none none []) none none])) = false :=
  nested_record_field_fails "outer" "Inner" none none none none
    [Field.mk "inner" (Schema.record "Inner" none none []) none none] []
    (Field.mk "inner" (Schema.record "Inner" none none []) none none)
    (List.mem_singleton.mpr rfl) rfl

/-- Helper: the one-pass camel-case transformation agrees with
split-on-underscore followed by per-segment Python title casing. -/
theorem camelOnePass_eq_split (cs : List Char) :
    ∀ prev, camelOnePass prev cs
      = titleAux prev (pySplitUnderscore cs).1
        ++ List.flatten (((pySplitUnderscore cs).2).map pyTitle) := by
  induction cs with
  | nil => intro prev; simp [camelOnePass, pySplitUnderscore, titleAux]
  | cons c cs ih =>
      intro prev
      by_cases h : c = '_'
      · subst h
        simp [camelOnePass, pySplitUnderscore, titleAux, ih false, pyTitle]
      · simp [camelOnePass, pySplitUnderscore, titleAux, h, ih c.isAlpha]

/-- C6 counterexample: for the record name `a2b` the code emits `A2B`
(Python title casing uppercases a letter that follows a non-letter inside a
segment), while capitalizing the single underscore-delimited segment `a2b`
as the claim states yields `A2b`. -/
theorem capital_case_counterexample :
    capital_case "a2b" = "A2B"
    ∧ claimed_capital_case "a2b" = "A2b"
    ∧ capital_case "a2b" ≠ claimed_capital_case "a2b" :=
  ⟨by decide, by decide, by decide⟩

/-- C6 (amended): the emitted type name is obtained from the record name by
removing underscores and title-casing: a letter that follows the start of
the name, an underscore or a non-letter character is uppercased, a letter
that follows another letter is lowercased, and every other character is
kept; the field name is passed through unchanged into the emitted field
line. -/
theorem capital_case_characterization :
    (∀ s : String, capital_case s = String.mk (camelOnePass false s.data))
    ∧ (∀ (f : Field) (line : String), renderField f = Except.ok line →
        ∃ pre post : List Char, line.data = pre ++ f.name.data ++ post) := by
  constructor
  · intro s
    rw [capital_case, camelOnePass_eq_split s.data false]
    simp [pyTitle]
  · intro f line h
    cases hm : avrotype_to_pytype f.type with
    | error e => rw [renderField, hm] at h; exact Except.noConfusion h
    | ok t =>
        rw [renderField, hm] at h
        have hline := Except.ok.inj h
        refine ⟨"\n    ".data, (":" ++ t ++ renderDefault f.default ++ "\n").data, ?_⟩
        rw [← hline]
        simp

/-- C6 witness: the characterization applied to the record name `my_record`
and to a field named `age` of type long. -/
theorem capital_case_characterization_witness :
    capital_case "my_record" = String.mk (camelOnePass false "my_record".data)
    ∧ ∃ pre post : List Char,
        ("\n    age:int\n" : String).data
          = pre ++ (Field.mk "age" (Schema.primitive PrimKind.long) none none).name.data
              ++ post :=
  ⟨capital_case_characterization.1 "my_record",
   capital_case_characterization.2
     (Field.mk "age" (Schema.primitive PrimKind.long) none none) "\n    age:int\n" rfl⟩

/-- Helper: the include loop only ever opens documents for reading. -/
theorem loadIncludes_readsOnly {N : Type} (parse : String → N → Except String (Schema × N)) :
    ∀ (files : List String) (names : N),
      readsOnly (loadIncludes parse files names).1 = true := by
  intro files
  induction files with
  | nil => intro names; rfl
  | cons f fs ih =>
      intro names
      cases hp : parse f names with
      | error e => simp [loadIncludes, hp, readsOnly]
      | ok p =>
          obtain ⟨s, names2⟩ := p
          have h2 := ih names2
          rw [readsOnly] at h2
          simp [loadIncludes, hp, readsOnly, h2]

/-- Helper: the generate loop only ever opens documents for reading. -/
theorem parseGenerates_readsOnly {N : Type} (parse : String → N → Except String (Schema × N)) :
    ∀ (files : List String) (names : N),
      readsOnly (parseGenerates parse files names).1 = true := by
  intro files
  induction files with
  | nil => intro names; rfl
  | cons f fs ih =>
      intro names
      cases hp : parse f names with
      | error e => simp [parseGenerates, hp, readsOnly]
      | ok p =>
          obtain ⟨s, names2⟩ := p
          have h2 := ih names2
          rw [readsOnly] at h2
          simp [parseGenerates, hp, readsOnly, h2]

/-- Helper: a trace of reads contains no write-open of any file. -/
theorem readsOnly_no_openWrite {tr : List Event} (h : readsOnly tr = true)
    (f : String) : Event.openWrite f ∉ tr := by
  intro hmem
  have h2 := List.all_eq_true.mp h _ hmem
  exact Bool.noConfusion h2

/-- Helper: a trace of reads contains no write of content to any file. -/
theorem no_write_of_readsOnly {tr : List Event} {f c : String}
    (h : readsOnly tr = true) : Event.write f c ∉ tr := by
  intro hmem
  have h2 := List.all_eq_true.mp h _ hmem
  exact Bool.noConfusion h2

/-- Helper: a trace of reads has no write event. -/
theorem readsOnly_no_write {tr : List Event} (h : readsOnly tr = true) :
    hasWriteEvent tr = false := by
  cases hw : hasWriteEvent tr with
  | false => rfl
  | true =>
      exfalso
      rw [hasWriteEvent] at hw
      obtain ⟨e, hmem, hp⟩ := List.any_eq_true.mp hw
      have h2 := List.all_eq_true.mp h e hmem
      cases e <;> simp_all

/-- Helper: when every successful include load is followed by a failing
generate parse (which covers both phases failing, since a failing include
load makes the premise vacuous and the run stop even earlier), the run
performs only document reads. -/
theorem run_parse_phase_readsOnly {N : Type}
    (parse : String → N → Except String (Schema × N)) (n0 : N)
    (gen inc : List String) (out : String)
    (h : ∀ n1, (loadIncludes parse inc n0).2 = Except.ok n1 →
        isSuccess (parseGenerates parse gen n1).2 = false) :
    readsOnly (run parse n0 gen inc out).1 = true := by
  cases hinc : (loadIncludes parse inc n0).2 with
  | error e =>
      have htr : (run parse n0 gen inc out).1 = (loadIncludes parse inc n0).1 := by
        simp [run, hinc]
      rw [htr]
      exact loadIncludes_readsOnly parse inc n0
  | ok n1 =>
      cases hgen : (parseGenerates parse gen n1).2 with
      | error e =>
          have htr : (run parse n0 gen inc out).1
              = (loadIncludes parse inc n0).1 ++ (parseGenerates parse gen n1).1 := by
            simp [run, hinc, hgen]
          have h1 := loadIncludes_readsOnly parse inc n0
          have h2 := parseGenerates_readsOnly parse gen n1
          rw [readsOnly] at h1 h2
          rw [htr, readsOnly, List.all_append, h1, h2]
          rfl
      | ok p =>
          exfalso
          have hbad := h n1 hinc
          rw [hgen] at hbad
          exact Bool.noConfusion hbad

/-- C10: when parsing any include or generate document fails, the run only
ever opens documents for reading: the output file is never opened, and so
never created or truncated, because every document parse precedes the
opening of the output sink. -/
theorem parse_failure_no_open {N : Type}
    (parse : String → N → Except String (Schema × N)) (n0 : N)
    (gen inc : List String) (out : String)
    (h : ∀ n1, (loadIncludes parse inc n0).2 = Except.ok n1 →
        isSuccess (parseGenerates parse gen n1).2 = false) :
    readsOnly (run parse n0 gen inc out).1 = true
    ∧ Event.openWrite out ∉ (run parse n0 gen inc out).1 := by
  have hro := run_parse_phase_readsOnly parse n0 gen inc out h
  exact ⟨hro, readsOnly_no_openWrite hro out⟩

/-- C10 witness: a run whose single generate document fails to parse. -/
theorem parse_failure_no_open_witness :
    readsOnly (run failingParse () ["point.avsc"] [] "models.py").1 = true
    ∧ Event.openWrite "models.py" ∉ (run failingParse () ["point.avsc"] [] "models.py").1 :=
  parse_failure_no_open failingParse () ["point.avsc"] [] "models.py"
    (fun n1 _ => by cases n1; rfl)

/-- C3 counterexample: a run in which the mapping step fails (the single
generate document parses into a record with an unmappable field type)
aborts, yet the output sink has already been opened for writing at that
point, so the sink is not opened only after all declarations have been
successfully produced, contrary to the claim. -/
theorem mapping_failure_opens_output :
    (run badUnionParse () ["rec.avsc"] [] "models.py").2
      = Except.error (unableToHandle "avro.schema.UnionSchema")
    ∧ Event.openWrite "models.py" ∈ (run badUnionParse () ["rec.avsc"] [] "models.py").1 :=
  ⟨rfl, by decide⟩

/-- C3 (amended): a failure at any step aborts the run and nothing is ever
written to the output file in a failing run; a parse failure aborts before
the output sink is even opened, while a mapping failure during rendering
aborts with that error after the output sink has been opened, and hence
truncated, but before anything is written to it. -/
theorem output_write_discipline {N : Type}
    (parse : String → N → Except String (Schema × N)) (n0 : N)
    (gen inc : List String) (out : String) :
    ((∀ n1, (loadIncludes parse inc n0).2 = Except.ok n1 →
        isSuccess (parseGenerates parse gen n1).2 = false) →
      Event.openWrite out ∉ (run parse n0 gen inc out).1
      ∧ hasWriteEvent (run parse n0 gen inc out).1 = false)
    ∧ (∀ (n1 : N) (schemas : List Schema) (n2 : N) (e : String),
        (loadIncludes parse inc n0).2 = Except.ok n1 →
        (parseGenerates parse gen n1).2 = Except.ok (schemas, n2) →
        write_dataclasses schemas = Except.error e →
        (run parse n0 gen inc out).2 = Except.error e
        ∧ Event.openWrite out ∈ (run parse n0 gen inc out).1
        ∧ hasWriteEvent (run parse n0 gen inc out).1 = false) := by
  constructor
  · intro h
    have hro := run_parse_phase_readsOnly parse n0 gen inc out h
    exact ⟨readsOnly_no_openWrite hro out, readsOnly_no_write hro⟩
  · intro n1 schemas n2 e hinc hgen hwd
    have htr : (run parse n0 gen inc out).1
        = (loadIncludes parse inc n0).1 ++ (parseGenerates parse gen n1).1
            ++ [Event.openWrite out] := by
      simp [run, hinc, hgen, hwd]
    have hres : (run parse n0 gen inc out).2 = Except.error e := by
      simp [run, hinc, hgen, hwd]
    have h1 := readsOnly_no_write (loadIncludes_readsOnly parse inc n0)
    have h2 := readsOnly_no_write (parseGenerates_readsOnly parse gen n1)
    rw [hasWriteEvent] at h1 h2
    refine ⟨hres, ?_, ?_⟩
    · rw [htr]; simp
    · rw [htr, hasWriteEvent]
      simp only [List.any_append, h1, h2]
      rfl

/-- C3 witness: the parse-failure arm applied to a run with a failing
document, and the mapping-failure arm applied to a run whose document
parses into a record with an unmappable field type. -/
theorem output_write_discipline_witness :
    (Event.openWrite "models.py" ∉ (run failingParse () ["point.avsc"] [] "models.py").1
      ∧ hasWriteEvent (run failingParse () ["point.avsc"] [] "models.py").1 = false)
    ∧ ((run badUnionParse () ["rec.avsc"] [] "models.py").2
        = Except.error (unableToHandle "avro.schema.UnionSchema")
      ∧ Event.openWrite "models.py" ∈ (run badUnionParse () ["rec.avsc"] [] "models.py").1
      ∧ hasWriteEvent (run badUnionParse () ["rec.avsc"] [] "models.py").1 = false) :=
  ⟨(output_write_discipline failingParse () ["point.avsc"] [] "models.py").1
      (fun n1 _ => by cases n1; rfl),
   (output_write_discipline badUnionParse () ["rec.avsc"] [] "models.py").2
      () [badUnionRecord] () (unableToHandle "avro.schema.UnionSchema") rfl rfl rfl⟩

/-- C8: rendering preserves order end to end: the field lines of a record
are the in-order renders of its field list, concatenated in that order; the
record blocks of the output are the in-order renders of the schema list,
concatenated in that order; and any content written to the output file by a
run is exactly the successful end-to-end render of the schemas parsed from
the generate documents in the order those documents were given. -/
theorem emission_order :
    (∀ fields : List Field,
      renderFields fields = (mapExcept renderField fields).map concatStrings)
    ∧ (∀ schemas : List Schema,
      renderSchemas schemas = (mapExcept renderSchema schemas).map concatStrings)
    ∧ (∀ (N : Type) (parse : String → N → Except String (Schema × N)) (n0 : N)
        (gen inc : List String) (out c : String),
        Event.write out c ∈ (run parse n0 gen inc out).1 →
        pipelineOutput parse n0 gen inc = Except.ok c) := by
  refine ⟨?_, ?_, ?_⟩
  · intro fields
    induction fields with
    | nil => rfl
    | cons f fs ih =>
        cases h0 : renderField f with
        | error e => simp [renderFields, mapExcept, h0, Except.map]
        | ok line =>
            cases h1 : mapExcept renderField fs with
            | error e => simp [renderFields, mapExcept, h0, h1, ih, Except.map]
            | ok bs => simp [renderFields, mapExcept, h0, h1, ih, Except.map, concatStrings]
  · intro schemas
    induction schemas with
    | nil => rfl
    | cons s ss ih =>
        cases h0 : renderSchema s with
        | error e => simp [renderSchemas, mapExcept, h0, Except.map]
        | ok block =>
            cases h1 : mapExcept renderSchema ss with
            | error e => simp [renderSchemas, mapExcept, h0, h1, ih, Except.map]
            | ok bs => simp [renderSchemas, mapExcept, h0, h1, ih, Except.map, concatStrings]
  · intro N parse n0 gen inc out c hmem
    cases hinc : (loadIncludes parse inc n0).2 with
    | error e =>
        exfalso
        have htr : (run parse n0 gen inc out).1 = (loadIncludes parse inc n0).1 := by
          simp [run, hinc]
        rw [htr] at hmem
        exact no_write_of_readsOnly (loadIncludes_readsOnly parse inc n0) hmem
    | ok n1 =>
        cases hgen : (parseGenerates parse gen n1).2 with
        | error e =>
            exfalso
            have htr : (run parse n0 gen inc out).1
                = (loadIncludes parse inc n0).1 ++ (parseGenerates parse gen n1).1 := by
              simp [run, hinc, hgen]
            rw [htr] at hmem
            rcases List.mem_append.mp hmem with hmem | hmem
            · exact no_write_of_readsOnly (loadIncludes_readsOnly parse inc n0) hmem
            · exact no_write_of_readsOnly (parseGenerates_readsOnly parse gen n1) hmem
        | ok p =>
            obtain ⟨schemas, n2⟩ := p
            cases hwd : write_dataclasses schemas with
            | error e =>
                exfalso
                have htr : (run parse n0 gen inc out).1
                    = (loadIncludes parse inc n0).1 ++ (parseGenerates parse gen n1).1
                        ++ [Event.openWrite out] := by
                  simp [run, hinc, hgen, hwd]
                rw [htr] at hmem
                rcases List.mem_append.mp hmem with hmem | hmem
                · rcases List.mem_append.mp hmem with hmem | hmem
                  · exact no_write_of_readsOnly (loadIncludes_readsOnly parse inc n0) hmem
                  · exact no_write_of_readsOnly (parseGenerates_readsOnly parse gen n1) hmem
                · simp at hmem
            | ok content =>
                have htr : (run parse n0 gen inc out).1
                    = (loadIncludes parse inc n0).1 ++ (parseGenerates parse gen n1).1
                        ++ [Event.openWrite out, Event.write out content] := by
                  simp [run, hinc, hgen, hwd]
                rw [htr] at hmem
                have hc : c = content := by
                  rcases List.mem_append.mp hmem with hmem | hmem
                  · rcases List.mem_append.mp hmem with hmem | hmem
                    · exact absurd hmem
                        (no_write_of_readsOnly (loadIncludes_readsOnly parse inc n0))
                    · exact absurd hmem
                        (no_write_of_readsOnly (parseGenerates_readsOnly parse gen n1))
                  · rcases List.mem_cons.mp hmem with hmem | hmem
                    · exact absurd hmem (by simp)
                    · rcases List.mem_singleton.mp hmem with h
                      exact (Event.write.inj h).2
                subst hc
                simp [pipelineOutput, hinc, hgen, hwd]

set_option maxRecDepth 100000 in
/-- C8 witness: a run with one generate document parsing into a record; the
content written is the end-to-end pipeline output. -/
theorem emission_order_witness :
    Event.write "models.py"
        (okValue "" (pipelineOutput pointParse () ["rec.avsc"] []))
      ∈ (run pointParse () ["rec.avsc"] [] "models.py").1
    ∧ pipelineOutput pointParse () ["rec.avsc"] []
      = Except.ok (okValue "" (pipelineOutput pointParse () ["rec.avsc"] [])) :=
  ⟨by decide,
   emission_order.2.2 Unit pointParse () ["rec.avsc"] [] "models.py"
     (okValue "" (pipelineOutput pointParse () ["rec.avsc"] [])) (by decide)⟩

end Avrogen
